import Mathlib

/-!
# A verification development for the glox tree-walking Lox interpreter

This file gives a shallow embedding, in Lean 4, of the parts of the glox
source (a Go implementation of the Lox language) that the statements below
are about: the runtime value universe, the interpreter's truthiness test
and binary `+` dispatch, the diagnostic formatting of the error handler,
the rendering (`toString`) of callables, classes and instances, the
environment chain with its `ancestor` walk, the resolver's
`resolveLocal` scope walk, and the final recursive-descent parser
(including its `for` desugaring, its panic/recover error synchronization,
and its expression-id bookkeeping).

Conventions of the embedding:
* Go's `float64` number payloads are modelled as rationals (`Rat`); every
  statement proved here is about kind dispatch and structure, never about
  IEEE rounding.
* Go maps are modelled as association lists; a map read of a missing key
  yields the zero value, which for `any`-valued maps is Lox `nil`.
* Go `panic`/`recover` (used for parse synchronization and runtime
  errors) is modelled with `Except`: a panic is `Except.error`, a
  `recover` is a `match` on the two cases.
* Mutable interpreter/parser state is passed explicitly.
-/

namespace Glox

/-- Literal payloads carried by tokens and `LiteralExpr` nodes.  In the Go
source these live in an `any`: `nil`, `bool` (injected by the parser for
`true`/`false`), `float64` numbers and `string`s. -/
inductive Literal where
  | lnil : Literal
  | lbool (b : Bool) : Literal
  | lnum (v : Rat) : Literal
  | lstr (s : String) : Literal
  deriving Repr, DecidableEq

/-- Token kinds, from `token.go` (the `TokenType` constants).  The final
parser additionally references a `tokenTypeMod` for `%` (the `token.go`
variant that declares it is not among the recovered sources; the README's
fizzbuzz example confirms `%` is a token of the final language). -/
inductive TokenType where
  | tLeftParen | tRightParen | tLeftBrace | tRightBrace
  | tComma | tDot | tMinus | tPlus | tSemicolon | tSlash | tStar | tMod
  | tBang | tBangEqual | tEqual | tEqualEqual
  | tGreater | tGreaterEqual | tLess | tLessEqual
  | tIdentifier | tString | tNumber
  | tAnd | tClass | tElse | tFalse | tFun | tFor | tIf | tNil | tOr
  | tPrint | tReturn | tSuper | tThis | tTrue | tVar | tWhile
  | tEndOfFile
  deriving Repr, DecidableEq

/-- A token: kind, lexeme text, optional literal payload, source line
(struct `Token` in `token.go`). -/
structure Token where
  tokenType : TokenType
  lexeme : String
  literal : Literal
  line : Nat
  deriving Repr, DecidableEq

/-- The runtime value universe.  In Go this is `any`; the kinds that
actually flow through the interpreter are `nil`, `bool`, `float64`,
`string`, the `time.Time` returned by the native `clock`, and the
callable structs (`function`, `class`, `instance`).  The callable
payloads are reduced to the fields their rendering and kind dispatch
read (closures and method tables are not needed by any statement in this
file). -/
inductive Value where
  | vnil : Value
  | vbool (b : Bool) : Value
  | vnum (v : Rat) : Value
  | vstr (s : String) : Value
  | vtime (t : Nat) : Value
  | vfun (declarationNameLexeme : String) : Value
  | vclass (name : String) : Value
  | vinstance (className : String) : Value
  deriving Repr, DecidableEq

/-- `isTruthy` from `interpreter.go`:

```go
func isTruthy(value any) bool {
    if value == nil {
        return false
    }
    boolVal, isBool := value.(bool)
    if isBool {
        return boolVal
    }
    return false
}
```

Note the final `return false`: every non-`nil`, non-`bool` value (numbers,
strings, callables, ...) is falsy in this code. -/
def isTruthy : Value → Bool
  | Value.vnil => false
  | Value.vbool b => b
  | _ => false

/-- The `tokenTypeBang` arm of `visitUnaryExpr` in `interpreter.go`:
`return !isTruthy(right)`. -/
def unaryBang (right : Value) : Value :=
  Value.vbool (!isTruthy right)

/-- `areValuesValidFloats` from `interpreter.go`: both type assertions
`.(float64)` must succeed. -/
def areValuesValidFloats : Value → Value → Bool
  | Value.vnum _, Value.vnum _ => true
  | _, _ => false

/-- `areValuesValidStrings` from `interpreter.go`: both type assertions
`.(string)` must succeed. -/
def areValuesValidStrings : Value → Value → Bool
  | Value.vstr _, Value.vstr _ => true
  | _, _ => false

/-- The `tokenTypePlus` arm of `visitBinaryExpr` in `interpreter.go`
(lines 70–80).  On a type mismatch the Go code reports a runtime error
through the error handler and falls through to the function's final
`return nil`; we return the produced value together with the
did-report-a-runtime-error flag:

```go
case tokenTypePlus:
    validFloats, leftFloat, rightFloat := areValuesValidFloats(left, right)
    if validFloats {
        return leftFloat + rightFloat
    }
    validStrings, leftString, rightString := areValuesValidStrings(left, right)
    if validStrings {
        return leftString + rightString
    }
    err := errors.New("Operands must be numbers or strings ...")
    interpreter.errorHandler.reportRuntime(expr.operator.line, err)
```
-/
def visitBinaryPlus : Value → Value → Value × Bool
  | Value.vnum x, Value.vnum y => (Value.vnum (x + y), false)
  | Value.vstr x, Value.vstr y => (Value.vstr (x ++ y), false)
  | _, _ => (Value.vnil, true)

/-- The behaviour of `+` as the specification states it (claim wording):
numeric sum when both operands are numbers, concatenation when both are
strings, and a reported runtime error in every other combination. -/
def specBinaryPlus : Value → Value → Value × Bool
  | Value.vnum x, Value.vnum y => (Value.vnum (x + y), false)
  | Value.vstr x, Value.vstr y => (Value.vstr (x ++ y), false)
  | _, _ => (Value.vnil, true)

/-- `ErrorHandler` flags, from `errorhandler.go`. -/
structure ErrorHandler where
  hadError : Bool
  hadRuntimeError : Bool
  deriving Repr, DecidableEq

/-- `reportRuntimeError` from `errorhandler.go` (lines 51–56).  It sets
`HadRuntimeError`, formats the diagnostic, and panics with it (the panic
payload is the full diagnostic text that the recovery site prints):

```go
func (h *ErrorHandler) reportRuntimeError(line int, err error) {
    h.HadRuntimeError = true
    runtimeError := runtimeError{msg: fmt.Sprintf("[line %d] %s\n", line, err)}
    panic(runtimeError)
}
```
The result is the updated handler together with the diagnostic text. -/
def reportRuntimeError (h : ErrorHandler) (line : Nat) (err : String) :
    ErrorHandler × String :=
  ({ h with hadRuntimeError := true },
   "[line " ++ toString line ++ "] " ++ err ++ "\n")

/-- `toString` of the user-function struct, from the final `function.go`
variant (lines 63–65): `return "<fun " + fun.declaration.name.lexeme + ">"`. -/
def functionToString (declarationNameLexeme : String) : String :=
  "<fun " ++ declarationNameLexeme ++ ">"

/-- `toString` of the class struct, from `class.go` (lines 254–256):
`return c.name`. -/
def classToString (name : String) : String :=
  name

/-- `toString` of the instance struct, from `instance.go` (lines
115–117): `return inst.class.name + " instance"`. -/
def instanceToString (className : String) : String :=
  className ++ " instance"

/-- Arity of the native `clock`, from `nativefunction.go`: `return 0`. -/
def clockArity : Nat := 0

/-- `call` of the native `clock`, from `nativefunction.go`:
`return time.Now()`.  The Go value returned is a `time.Time` instant —
not a `float64` — which we model as the opaque `Value.vtime` carrying
the current instant `now` supplied by the host. -/
def clockCall (now : Nat) (_args : List Value) : Value :=
  Value.vtime now

/-- `toString` of the native `clock`, from `nativefunction.go`:
`return "<native fun>"`. -/
def clockToString : String := "<native fun>"

/-- Kind test: is a runtime value a Lox number (`float64` in Go)? -/
def Value.isNumber : Value → Bool
  | Value.vnum _ => true
  | _ => false

/-! ## Environments (`environment.go`) -/

/-- The environment struct from `environment.go`: a mutable name→value
map (`values`, modelled as an association list with Go's zero-value read
semantics) and an optional parent (`enclosing`, `nil` for globals). -/
inductive Env where
  | mk (values : List (String × Value)) (enclosing : Option Env)

/-- The `values` field of an environment. -/
def Env.values : Env → List (String × Value)
  | Env.mk values _ => values

/-- The `enclosing` field of an environment (`none` at the globals). -/
def Env.enclosing : Env → Option Env
  | Env.mk _ enclosing => enclosing

/-- A read `env.values[name]` of the Go map: the stored value, or the
zero value of `any` — Lox `nil` — when the key is absent. -/
def Env.readValue (env : Env) (name : String) : Value :=
  (env.values.lookup name).getD Value.vnil

/-- Membership test `_, found := env.values[name]`. -/
def Env.hasValue (env : Env) (name : String) : Bool :=
  (env.values.lookup name).isSome

/-- `ancestor` from `environment.go`:

```go
func (env *environment) ancestor(distance int) *environment {
    ancestorEnv := env
    for i := 0; i < distance; i++ {
        ancestorEnv = ancestorEnv.enclosing
    }
    return ancestorEnv
}
```
Following a `nil` parent is a crash in Go; it is modelled as `none`. -/
def Env.ancestor (env : Env) : Nat → Option Env
  | 0 => some env
  | d + 1 =>
    match env.enclosing with
    | some parent => parent.ancestor d
    | none => none

/-- `getAt` from `environment.go`: read `name` in the ancestor at the
given hop distance; a missing binding reports *Undefined variable*
(modelled as `Except.error`), a too-short chain is the Go nil-pointer
crash (also an error, distinguished by message). -/
def Env.getAt (env : Env) (distance : Nat) (name : String) : Except String Value :=
  match env.ancestor distance with
  | none => Except.error "nil environment"
  | some anc =>
    match anc.values.lookup name with
    | some v => Except.ok v
    | none => Except.error ("Undefined variable '" ++ name ++ "'.")

/-- `get` from `environment.go`: read `name` here, else recurse into the
parent, else report *Undefined variable*. -/
def Env.get : Env → String → Except String Value
  | Env.mk values enclosing, name =>
    match values.lookup name with
    | some v => Except.ok v
    | none =>
      match enclosing with
      | some parent => parent.get name
      | none => Except.error ("Undefined variable '" ++ name ++ "'.")

/-- `getSubClassThisValue` from `environment.go` (lines 52–55):

```go
func (env *environment) getSubClassThisValue(distance int) any {
    // if this is called, we already checked that we are in a super class
    return env.ancestor(distance - 1).values["this"]
}
```
The map read has no found-check: an absent `"this"` yields the zero
value (`nil`). -/
def Env.getSubClassThisValue (env : Env) (distance : Nat) : Option Value :=
  (env.ancestor (distance - 1)).map (fun anc => anc.readValue "this")

/-- Modelled from the spec: the `visitSuperExpr` arm of the final
interpreter, whose source file is not among the recovered sources (only
its collaborators `environment.getSubClassThisValue` and the resolver's
`visitClassStmt`/`visitSuperExpr` are).  Per the spec: "Let *d* be the
hop distance recorded for the `super` keyword.  The superclass is read
at ancestor *d*; `this` is read at ancestor *d − 1*."  The pair of reads
it performs is returned. -/
def visitSuperReads (env : Env) (d : Nat) : Except String Value × Option Value :=
  (env.getAt d "super", env.getSubClassThisValue d)

/-! ## The resolver's scope walk (`resolver.go`) -/

/-- A lexical scope of the resolver: the Go `map[string]bool`
(name → defined?), modelled as an association list. -/
abbrev Scope := List (String × Bool)

/-- Membership test `_, hasVar := scope[name]`. -/
def scopeHas (scope : Scope) (name : String) : Bool :=
  (scope.lookup name).isSome

/-- The loop of `resolveLocal` in `resolver.go`, counting the index down
exactly as `for i := len(r.scopes) - 1; i >= 0; i--` does (the argument
`k` is `i + 1`, so `k = 0` is loop exit):

```go
func (r *Resolver) resolveLocal(expr Expr, name Token) {
    for i := len(r.scopes) - 1; i >= 0; i-- {
        _, hasVar := r.scopes[i][name.lexeme]
        if hasVar {
            r.interpreter.resolve(expr, len(r.scopes)-1-i)
            return
        }
    }
}
```
The recorded side-table entry (`interpreter.resolve`'s distance
argument) is returned, `none` when the loop falls through. -/
def resolveLocalLoop (scopes : List Scope) (name : String) : Nat → Option Nat
  | 0 => none
  | k + 1 =>
    if scopeHas (scopes.getD k []) name then
      some (scopes.length - 1 - k)
    else
      resolveLocalLoop scopes name k

/-- `resolveLocal` from `resolver.go` (lines 101–109): run the countdown
loop from the top index `len(scopes) - 1`. -/
def resolveLocal (scopes : List Scope) (name : String) : Option Nat :=
  resolveLocalLoop scopes name scopes.length

/-- Modelled from the spec: `lookUpVariable` of the final interpreter,
whose source file is not among the recovered sources.  Per the spec:
"For a `Variable` or `Assign` with resolution entry *n*, read/write at
environment ancestor *n*; otherwise read/write in globals." -/
def lookUpVariable (entry : Option Nat) (env globals : Env) (name : String) :
    Except String Value :=
  match entry with
  | some d => env.getAt d name
  | none => globals.get name

/-! ## The AST (`expr.go`, `stmt.go`) -/

/-- The shape of a `VariableExpr`, used for the `superclass` field of
`ClassStmt`.  The parser leaves the Go zero value (`id = 0`) when no
superclass is written; the resolver tests `getId() != 0`. -/
structure VariableData where
  id : Nat
  name : Token
  deriving Repr, DecidableEq

/-- Expression nodes, from `expr.go`.  Every node carries the integer
`id` the parser assigned with `getNextExprId`. -/
inductive Expr where
  | assign (id : Nat) (name : Token) (value : Expr)
  | binary (id : Nat) (left : Expr) (operator : Token) (right : Expr)
  | call (id : Nat) (callee : Expr) (paren : Token) (args : List Expr)
  | get (id : Nat) (object : Expr) (name : Token)
  | grouping (id : Nat) (expression : Expr)
  | literal (id : Nat) (value : Literal)
  | logical (id : Nat) (left : Expr) (operator : Token) (right : Expr)
  | setE (id : Nat) (object : Expr) (name : Token) (value : Expr)
  | superE (id : Nat) (keyword : Token) (method : Token)
  | thisE (id : Nat) (keyword : Token)
  | unaryE (id : Nat) (operator : Token) (right : Expr)
  | varE (id : Nat) (name : Token)
  deriving Repr

/-! Statement nodes, from `stmt.go`.  Statement lists are lists of
`Option Stmt` because in the Go source `Parse` and `blockStatement`
append the result of `declaration()`, which is `nil` after an error
recovery; `none` is that `nil`.  `ifS`'s `elseBranch`, `returnS`'s
`value` and `varS`'s `initializer` are `nil` in Go when the construct is
absent, hence `Option` as well. -/
mutual

/-- Statement nodes of the AST; see the comment above the `mutual`. -/
inductive Stmt where
  | block (statements : List (Option Stmt))
  | classS (name : Token) (superclass : VariableData) (methods : List FunctionStmt)
  | exprS (expr : Expr)
  | functionS (fn : FunctionStmt)
  | ifS (condition : Expr) (thenBranch : Stmt) (elseBranch : Option Stmt)
  | printS (expr : Expr)
  | returnS (keyword : Token) (value : Option Expr)
  | varS (name : Token) (initializer : Option Expr)
  | whileS (condition : Expr) (body : Stmt)

/-- The `FunctionStmt` struct (name, parameters, body). -/
inductive FunctionStmt where
  | mk (name : Token) (params : List Token) (body : List (Option Stmt))

end

/-! ## Parser state and primitives (`parser.go`, final variant) -/

/-- A parse-time panic: a synchronizing static error (the Go
`staticError` payload carries the formatted diagnostic), or exhaustion
of the fuel that makes the embedded recursion total (no Go
counterpart; it is re-thrown, never caught, like a foreign panic). -/
inductive ParseErr where
  | staticErr (msg : String)
  | noFuel
  deriving Repr, DecidableEq

/-- Mutable parser state: the token list, the cursor `current`, the
expression-id counter `nextExprId` and the error handler's `HadError`
flag. -/
structure ParserState where
  tokens : List Token
  current : Nat
  nextExprId : Nat
  hadError : Bool
  deriving Repr

/-- The parsing monad: state passing plus the panic channel. -/
def P (α : Type) : Type := ParserState → Except ParseErr α × ParserState

/-- `pure` for `P`. -/
def P.pureP {α : Type} (a : α) : P α := fun s => (Except.ok a, s)

/-- `bind` for `P`: a panic short-circuits but keeps the state (Go's
panic does not roll mutations back). -/
def P.bindP {α β : Type} (x : P α) (f : α → P β) : P β := fun s =>
  match x s with
  | (Except.ok a, s1) => f a s1
  | (Except.error e, s1) => (Except.error e, s1)

instance : Monad P where
  pure := P.pureP
  bind := P.bindP

/-- Out of fuel: the embedding's stand-in for nontermination. -/
def fuelErr {α : Type} : P α := fun s => (Except.error ParseErr.noFuel, s)

/-- The trailing EOF token every scanned token list ends with; also used
as the (never reached on well-formed input) out-of-range read default. -/
def eofToken : Token :=
  { tokenType := TokenType.tEndOfFile, lexeme := "", literal := Literal.lnil, line := 0 }

/-- The Go zero value of `Token`. -/
def zeroToken : Token :=
  { tokenType := TokenType.tLeftParen, lexeme := "", literal := Literal.lnil, line := 0 }

/-- The Go zero value of `VariableExpr` (sentinel for "no superclass"). -/
def zeroVariableData : VariableData := { id := 0, name := zeroToken }

/-- `peek`: `p.tokens[p.current]`. -/
def ParserState.peek (s : ParserState) : Token := s.tokens.getD s.current eofToken

/-- `previous`: `p.tokens[p.current-1]`. -/
def ParserState.previous (s : ParserState) : Token := s.tokens.getD (s.current - 1) eofToken

/-- `isAtEnd`: `p.peek().tokenType == tokenTypeEndOfFile`. -/
def ParserState.isAtEnd (s : ParserState) : Bool :=
  s.peek.tokenType == TokenType.tEndOfFile

/-- The state change of `advance`: `if !p.isAtEnd() { p.current++ }`. -/
def ParserState.advanceState (s : ParserState) : ParserState :=
  if s.isAtEnd then s else { s with current := s.current + 1 }

/-- `peek` in the monad. -/
def peekT : P Token := fun s => (Except.ok s.peek, s)

/-- `previous` in the monad. -/
def previousT : P Token := fun s => (Except.ok s.previous, s)

/-- `isAtEnd` in the monad. -/
def isAtEndT : P Bool := fun s => (Except.ok s.isAtEnd, s)

/-- `advance`: step the cursor and return `previous()`. -/
def advanceT : P Token := fun s =>
  let s1 := s.advanceState
  (Except.ok s1.previous, s1)

/-- `check(tokenType)`: false at EOF, else compare the lookahead. -/
def checkT (tt : TokenType) : P Bool := fun s =>
  (Except.ok (!s.isAtEnd && s.peek.tokenType == tt), s)

/-- `match(tokenTypes...)`: if the lookahead is one of the kinds,
consume it and report true. -/
def matchTokens (tts : List TokenType) : P Bool := fun s =>
  if !s.isAtEnd && tts.contains s.peek.tokenType then
    (Except.ok true, s.advanceState)
  else
    (Except.ok false, s)

/-- The diagnostic text of `reportStaticError` in `errorhandler.go`:
`[line L] Error WHERE: MSG` (the `where` argument is the raw lexeme). -/
def staticErrorMsg (line : Nat) (whereText : String) (msg : String) : String :=
  if whereText.length > 0 then
    "[line " ++ toString line ++ "] Error " ++ whereText ++ ": " ++ msg ++ "\n"
  else
    "[line " ++ toString line ++ "] Error: " ++ msg ++ "\n"

/-- `createError` in `parser.go` → `reportStaticError` in
`errorhandler.go`: set `HadError`; when `synchronize` is true, panic
with the `staticError` payload, else keep going (the message only goes
to stderr). -/
def createError (tok : Token) (msg : String) (needSync : Bool) : P Unit := fun s =>
  let s1 := { s with hadError := true }
  if needSync then
    (Except.error (ParseErr.staticErr (staticErrorMsg tok.line tok.lexeme msg)), s1)
  else
    (Except.ok (), s1)

/-- `consume(tokenType, msg)`: take the expected token or raise a
synchronizing error (the trailing `return p.peek()` of the Go source is
unreachable, the panic having unwound). -/
def consume (tt : TokenType) (msg : String) : P Token := do
  let ok ← checkT tt
  if ok then
    advanceT
  else do
    let tok ← peekT
    createError tok msg true
    peekT

/-- `getNextExprId`: `p.nextExprId++; return p.nextExprId` (the first
assigned id is 1). -/
def getNextExprId : P Nat := fun s =>
  let nid := s.nextExprId + 1
  (Except.ok nid, { s with nextExprId := nid })

/-- Statement-starter kinds at which `synchronize` stops. -/
def isSyncPoint : TokenType → Bool
  | TokenType.tClass => true
  | TokenType.tFor => true
  | TokenType.tFun => true
  | TokenType.tIf => true
  | TokenType.tPrint => true
  | TokenType.tReturn => true
  | TokenType.tVar => true
  | TokenType.tWhile => true
  | _ => false

/-- The discard loop of `synchronize`: stop at EOF, just after a `;`, or
before a statement starter; otherwise drop a token and repeat. -/
def syncLoop : Nat → ParserState → ParserState
  | 0, s => s
  | fuel + 1, s =>
    if s.isAtEnd then s
    else if s.previous.tokenType == TokenType.tSemicolon then s
    else if isSyncPoint s.peek.tokenType then s
    else syncLoop fuel s.advanceState

/-- `synchronize` from `parser.go`: advance once, then discard to the
next statement boundary. -/
def synchronize (s : ParserState) : ParserState :=
  syncLoop (s.tokens.length + 1) s.advanceState

/-- The desugaring core of `forStatement` (`parser.go` lines 211–223):
wrap the body with the increment, default the condition to a fresh
`true` literal (`freshCondId` is the id `getNextExprId` produced for it;
it is only read when `condition` is absent), build the `while`, and
prepend the initializer:

```go
if increment != nil {
    statements := []Stmt{body, ExprStmt{expr: increment}}
    body = BlockStmt{statements: statements}
}
if condition == nil {
    condition = LiteralExpr{id: p.getNextExprId(), value: true}
}
body = WhileStmt{condition: condition, body: body}
if initializer != nil {
    statements := []Stmt{initializer, body}
    body = BlockStmt{statements: statements}
}
return body
```
-/
def forDesugar (initializer : Option Stmt) (condition : Option Expr)
    (increment : Option Expr) (freshCondId : Nat) (body : Stmt) : Stmt :=
  let body1 : Stmt :=
    match increment with
    | some inc => Stmt.block [some body, some (Stmt.exprS inc)]
    | none => body
  let cond1 : Expr :=
    match condition with
    | some c => c
    | none => Expr.literal freshCondId (Literal.lbool true)
  let body2 : Stmt := Stmt.whileS cond1 body1
  match initializer with
  | some init => Stmt.block [some init, some body2]
  | none => body2

/-- The `for` desugaring as the specification words it: "`for (init;
cond; incr) body` → a block containing `init`, followed by `while (cond
?? true) { body; incr; }`; omitted clauses elide their statements."
(`freshCondId` again names the id given to the synthesized `true`.) -/
def specForDesugar (initializer : Option Stmt) (condition : Option Expr)
    (increment : Option Expr) (freshCondId : Nat) (body : Stmt) : Stmt :=
  let whileBody : Stmt :=
    match increment with
    | some inc => Stmt.block [some body, some (Stmt.exprS inc)]
    | none => body
  let w : Stmt :=
    Stmt.whileS (condition.getD (Expr.literal freshCondId (Literal.lbool true))) whileBody
  match initializer with
  | some init => Stmt.block [some init, some w]
  | none => w

/-! ## The grammar productions (`parser.go`, final variant)

Each production takes a fuel argument that strictly decreases at every
nested call; on well-formed inputs the fuel supplied by `Parse` is never
exhausted.  The Go loops (`for p.match(...) { ... }`, the block,
argument and parameter accumulation loops) are rendered as the `...Loop`
functions. -/

mutual

/-- `declaration` (`parser.go` lines 82–115): run the body; a recovered
synchronizing static error prints, synchronizes and yields the `nil`
statement (`none`); any other panic — here only fuel exhaustion — is
re-raised, as the Go `recover` handler re-panics on foreign values. -/
def declaration : Nat → P (Option Stmt)
  | 0 => fuelErr
  | fuel + 1 => fun s =>
    match declarationBody fuel s with
    | (Except.ok stmt, s1) => (Except.ok (some stmt), s1)
    | (Except.error (ParseErr.staticErr _), s1) => (Except.ok none, synchronize s1)
    | (Except.error ParseErr.noFuel, s1) => (Except.error ParseErr.noFuel, s1)

/-- The dispatch body of `declaration`. -/
def declarationBody : Nat → P Stmt
  | 0 => fuelErr
  | fuel + 1 => do
    if ← matchTokens [TokenType.tClass] then
      classDeclaration fuel
    else if ← matchTokens [TokenType.tFun] then do
      let fn ← function fuel "function"
      pure (Stmt.functionS fn)
    else if ← matchTokens [TokenType.tVar] then
      varDeclaration fuel
    else
      statement fuel

/-- `classDeclaration` (`parser.go` lines 117–131). -/
def classDeclaration : Nat → P Stmt
  | 0 => fuelErr
  | fuel + 1 => do
    let name ← consume TokenType.tIdentifier "Expect class name."
    let superclass ←
      if ← matchTokens [TokenType.tLess] then do
        let _ ← consume TokenType.tIdentifier "Expect superclass name."
        let sid ← getNextExprId
        let prev ← previousT
        pure { id := sid, name := prev : VariableData }
      else
        pure zeroVariableData
    let _ ← consume TokenType.tLeftBrace "Expect '\x7b' before class body."
    let methods ← classMethodsLoop fuel
    let _ ← consume TokenType.tRightBrace "Expect '\x7d' after class body."
    pure (Stmt.classS name superclass methods)

/-- The method-collection loop of `classDeclaration`. -/
def classMethodsLoop : Nat → P (List FunctionStmt)
  | 0 => fuelErr
  | fuel + 1 => do
    let stop ← checkT TokenType.tRightBrace
    let atEnd ← isAtEndT
    if !stop && !atEnd then do
      let m ← function fuel "method"
      let rest ← classMethodsLoop fuel
      pure (m :: rest)
    else
      pure []

/-- `function(kind)` (`parser.go` lines 133–151). -/
def function : Nat → String → P FunctionStmt
  | 0, _ => fuelErr
  | fuel + 1, kind => do
    let name ← consume TokenType.tIdentifier ("Expect " ++ kind ++ " name.")
    let _ ← consume TokenType.tLeftParen ("Expect '(' after " ++ kind ++ " name.")
    let nonEmpty ← checkT TokenType.tRightParen
    let params ←
      if !nonEmpty then do
        let p0 ← consume TokenType.tIdentifier "Expect parameter name."
        paramsLoop fuel [p0]
      else
        pure []
    let _ ← consume TokenType.tRightParen "Expect ')' after parameters."
    let _ ← consume TokenType.tLeftBrace ("Expect '\x7b' before " ++ kind ++ " body.")
    let body ← blockStatement fuel
    pure (FunctionStmt.mk name params body)

/-- The parameter loop of `function`: on each `,`, report (without
synchronizing) once the 255 cap is reached, then take the next name. -/
def paramsLoop : Nat → List Token → P (List Token)
  | 0, _ => fuelErr
  | fuel + 1, acc => do
    if ← matchTokens [TokenType.tComma] then do
      if acc.length ≥ 255 then do
        let tok ← peekT
        createError tok "Can't have more than 255 parameters." false
      let p ← consume TokenType.tIdentifier "Expect parameter name."
      paramsLoop fuel (acc ++ [p])
    else
      pure acc

/-- `varDeclaration` (`parser.go` lines 153–163). -/
def varDeclaration : Nat → P Stmt
  | 0 => fuelErr
  | fuel + 1 => do
    let name ← consume TokenType.tIdentifier "Expect variable name."
    let initializer ←
      if ← matchTokens [TokenType.tEqual] then do
        let e ← expression fuel
        pure (some e)
      else
        pure (none : Option Expr)
    let _ ← consume TokenType.tSemicolon "Expect ';' after variable declaration."
    pure (Stmt.varS name initializer)

/-- `statement` (`parser.go` lines 165–181). -/
def statement : Nat → P Stmt
  | 0 => fuelErr
  | fuel + 1 => do
    if ← matchTokens [TokenType.tFor] then
      forStatement fuel
    else if ← matchTokens [TokenType.tIf] then
      ifStatement fuel
    else if ← matchTokens [TokenType.tPrint] then
      printStatement fuel
    else if ← matchTokens [TokenType.tReturn] then
      returnStatement fuel
    else if ← matchTokens [TokenType.tWhile] then
      whileStatment fuel
    else if ← matchTokens [TokenType.tLeftBrace] then do
      let stmts ← blockStatement fuel
      pure (Stmt.block stmts)
    else
      expressionStatment fuel

/-- `expressionStatment` (sic; `parser.go` lines 183–187). -/
def expressionStatment : Nat → P Stmt
  | 0 => fuelErr
  | fuel + 1 => do
    let e ← expression fuel
    let _ ← consume TokenType.tSemicolon "Expect ';' after expression."
    pure (Stmt.exprS e)

/-- `forStatement` (`parser.go` lines 189–224).  Note the increment
guard: the source tests `!p.check(tokenTypeSemicolon)` — not
`tokenTypeRightParen` — before parsing the increment expression, and the
synthesized `true` literal takes an id only when the condition was
omitted. -/
def forStatement : Nat → P Stmt
  | 0 => fuelErr
  | fuel + 1 => do
    let _ ← consume TokenType.tLeftParen "Expect '(' after 'for'."
    let initializer ←
      if ← matchTokens [TokenType.tSemicolon] then
        pure (none : Option Stmt)
      else if ← matchTokens [TokenType.tVar] then do
        let v ← varDeclaration fuel
        pure (some v)
      else do
        let e ← expressionStatment fuel
        pure (some e)
    let condStop ← checkT TokenType.tSemicolon
    let condition ←
      if !condStop then do
        let c ← expression fuel
        pure (some c)
      else
        pure (none : Option Expr)
    let _ ← consume TokenType.tSemicolon "Expect ';' after loop condition."
    let incrStop ← checkT TokenType.tSemicolon
    let increment ←
      if !incrStop then do
        let i ← expression fuel
        pure (some i)
      else
        pure (none : Option Expr)
    let _ ← consume TokenType.tRightParen "Expect ')' after for clauses."
    let body ← statement fuel
    let freshCondId ← if condition.isNone then getNextExprId else pure 0
    pure (forDesugar initializer condition increment freshCondId body)

/-- `ifStatement` (`parser.go` lines 226–236). -/
def ifStatement : Nat → P Stmt
  | 0 => fuelErr
  | fuel + 1 => do
    let _ ← consume TokenType.tLeftParen "Expect '(' after 'if'."
    let condition ← expression fuel
    let _ ← consume TokenType.tRightParen "Expect ')' after if condition"
    let thenBranch ← statement fuel
    let elseBranch ←
      if ← matchTokens [TokenType.tElse] then do
        let e ← statement fuel
        pure (some e)
      else
        pure (none : Option Stmt)
    pure (Stmt.ifS condition thenBranch elseBranch)

/-- `printStatement` (`parser.go` lines 238–242). -/
def printStatement : Nat → P Stmt
  | 0 => fuelErr
  | fuel + 1 => do
    let value ← expression fuel
    let _ ← consume TokenType.tSemicolon "Expect ';' after value."
    pure (Stmt.printS value)

/-- `returnStatement` (`parser.go` lines 244–252). -/
def returnStatement : Nat → P Stmt
  | 0 => fuelErr
  | fuel + 1 => do
    let keyword ← previousT
    let stop ← checkT TokenType.tSemicolon
    let value ←
      if !stop then do
        let e ← expression fuel
        pure (some e)
      else
        pure (none : Option Expr)
    let _ ← consume TokenType.tSemicolon "Expect ';' after return value."
    pure (Stmt.returnS keyword value)

/-- `whileStatment` (sic; `parser.go` lines 254–260). -/
def whileStatment : Nat → P Stmt
  | 0 => fuelErr
  | fuel + 1 => do
    let _ ← consume TokenType.tLeftParen "Expect '(' after 'while'."
    let condition ← expression fuel
    let _ ← consume TokenType.tRightParen "Expect ')' after while condition"
    let body ← statement fuel
    pure (Stmt.whileS condition body)

/-- `blockStatement` (`parser.go` lines 262–269): collect declarations
(including the `nil`s of recovered errors), then require `}`. -/
def blockStatement : Nat → P (List (Option Stmt))
  | 0 => fuelErr
  | fuel + 1 => do
    let stmts ← blockLoop fuel
    let _ ← consume TokenType.tRightBrace "Expect '\x7d' after block."
    pure stmts

/-- The collection loop of `blockStatement`. -/
def blockLoop : Nat → P (List (Option Stmt))
  | 0 => fuelErr
  | fuel + 1 => do
    let stop ← checkT TokenType.tRightBrace
    let atEnd ← isAtEndT
    if !stop && !atEnd then do
      let d ← declaration fuel
      let rest ← blockLoop fuel
      pure (d :: rest)
    else
      pure []

/-- `expression` (`parser.go` lines 271–273). -/
def expression : Nat → P Expr
  | 0 => fuelErr
  | fuel + 1 => assignment fuel

/-- `assignment` (`parser.go` lines 275–292): a `Variable` left-hand
side becomes `Assign`, a `Get` becomes `Set`; anything else reports
*Invalid assignment target.* without synchronizing and the left-hand
side is returned unchanged. -/
def assignment : Nat → P Expr
  | 0 => fuelErr
  | fuel + 1 => do
    let e ← logicOr fuel
    if ← matchTokens [TokenType.tEqual] then do
      let equals ← previousT
      let value ← assignment fuel
      match e with
      | Expr.varE _ name => do
        let nid ← getNextExprId
        pure (Expr.assign nid name value)
      | Expr.get _ object name => do
        let nid ← getNextExprId
        pure (Expr.setE nid object name value)
      | _ => do
        createError equals "Invalid assignment target." false
        pure e
    else
      pure e

/-- `or` (`parser.go` lines 294–302). -/
def logicOr : Nat → P Expr
  | 0 => fuelErr
  | fuel + 1 => do
    let e ← logicAnd fuel
    logicOrLoop fuel e

/-- The operator loop of `or`. -/
def logicOrLoop : Nat → Expr → P Expr
  | 0, _ => fuelErr
  | fuel + 1, e => do
    if ← matchTokens [TokenType.tOr] then do
      let operator ← previousT
      let right ← logicAnd fuel
      let nid ← getNextExprId
      logicOrLoop fuel (Expr.logical nid e operator right)
    else
      pure e

/-- `and` (`parser.go` lines 304–312). -/
def logicAnd : Nat → P Expr
  | 0 => fuelErr
  | fuel + 1 => do
    let e ← equality fuel
    logicAndLoop fuel e

/-- The operator loop of `and`. -/
def logicAndLoop : Nat → Expr → P Expr
  | 0, _ => fuelErr
  | fuel + 1, e => do
    if ← matchTokens [TokenType.tAnd] then do
      let operator ← previousT
      let right ← equality fuel
      let nid ← getNextExprId
      logicAndLoop fuel (Expr.logical nid e operator right)
    else
      pure e

/-- `equality` (`parser.go` lines 314–322). -/
def equality : Nat → P Expr
  | 0 => fuelErr
  | fuel + 1 => do
    let e ← comparison fuel
    equalityLoop fuel e

/-- The operator loop of `equality`. -/
def equalityLoop : Nat → Expr → P Expr
  | 0, _ => fuelErr
  | fuel + 1, e => do
    if ← matchTokens [TokenType.tBangEqual, TokenType.tEqualEqual] then do
      let operator ← previousT
      let right ← comparison fuel
      let nid ← getNextExprId
      equalityLoop fuel (Expr.binary nid e operator right)
    else
      pure e

/-- `comparison` (`parser.go` lines 324–332). -/
def comparison : Nat → P Expr
  | 0 => fuelErr
  | fuel + 1 => do
    let e ← term fuel
    comparisonLoop fuel e

/-- The operator loop of `comparison`. -/
def comparisonLoop : Nat → Expr → P Expr
  | 0, _ => fuelErr
  | fuel + 1, e => do
    if ← matchTokens [TokenType.tGreater, TokenType.tGreaterEqual,
        TokenType.tLess, TokenType.tLessEqual] then do
      let operator ← previousT
      let right ← term fuel
      let nid ← getNextExprId
      comparisonLoop fuel (Expr.binary nid e operator right)
    else
      pure e

/-- `term` (`parser.go` lines 334–342). -/
def term : Nat → P Expr
  | 0 => fuelErr
  | fuel + 1 => do
    let e ← factor fuel
    termLoop fuel e

/-- The operator loop of `term`. -/
def termLoop : Nat → Expr → P Expr
  | 0, _ => fuelErr
  | fuel + 1, e => do
    if ← matchTokens [TokenType.tMinus, TokenType.tPlus] then do
      let operator ← previousT
      let right ← factor fuel
      let nid ← getNextExprId
      termLoop fuel (Expr.binary nid e operator right)
    else
      pure e

/-- `factor` (`parser.go` lines 344–352; note the source also accepts
`tokenTypeMod` here). -/
def factor : Nat → P Expr
  | 0 => fuelErr
  | fuel + 1 => do
    let e ← unary fuel
    factorLoop fuel e

/-- The operator loop of `factor`. -/
def factorLoop : Nat → Expr → P Expr
  | 0, _ => fuelErr
  | fuel + 1, e => do
    if ← matchTokens [TokenType.tSlash, TokenType.tStar, TokenType.tMod] then do
      let operator ← previousT
      let right ← unary fuel
      let nid ← getNextExprId
      factorLoop fuel (Expr.binary nid e operator right)
    else
      pure e

/-- `unary` (`parser.go` lines 354–361).  After a `!` or `-` the source
parses the operand with `p.primary()`:

```go
func (p *Parser) unary() Expr {
    if p.match(tokenTypeBang, tokenTypeMinus) {
        operator := p.previous()
        right := p.primary()
        return UnaryExpr{id: p.getNextExprId(), operator: operator, right: right}
    }
    return p.call()
}
```
-/
def unary : Nat → P Expr
  | 0 => fuelErr
  | fuel + 1 => do
    if ← matchTokens [TokenType.tBang, TokenType.tMinus] then do
      let operator ← previousT
      let right ← primary fuel
      let nid ← getNextExprId
      pure (Expr.unaryE nid operator right)
    else
      callP fuel

/-- `call` (`parser.go` lines 363–378). -/
def callP : Nat → P Expr
  | 0 => fuelErr
  | fuel + 1 => do
    let e ← primary fuel
    callLoop fuel e

/-- The suffix loop of `call`: call parentheses and `.` property gets. -/
def callLoop : Nat → Expr → P Expr
  | 0, _ => fuelErr
  | fuel + 1, e => do
    if ← matchTokens [TokenType.tLeftParen] then do
      let e1 ← finishCall fuel e
      callLoop fuel e1
    else if ← matchTokens [TokenType.tDot] then do
      let name ← consume TokenType.tIdentifier "Expect property name after '.'."
      let nid ← getNextExprId
      callLoop fuel (Expr.get nid e name)
    else
      pure e

/-- `finishCall` (`parser.go` lines 380–393). -/
def finishCall : Nat → Expr → P Expr
  | 0, _ => fuelErr
  | fuel + 1, callee => do
    let empty ← checkT TokenType.tRightParen
    let args ←
      if !empty then do
        let a0 ← expression fuel
        argsLoop fuel [a0]
      else
        pure []
    let paren ← consume TokenType.tRightParen "Expect ')' after arguments."
    let nid ← getNextExprId
    pure (Expr.call nid callee paren args)

/-- The argument loop of `finishCall` with its (non-synchronizing) 255
cap. -/
def argsLoop : Nat → List Expr → P (List Expr)
  | 0, _ => fuelErr
  | fuel + 1, acc => do
    if ← matchTokens [TokenType.tComma] then do
      if acc.length ≥ 255 then do
        let tok ← peekT
        createError tok "Can't have more than 255 arguments." false
      let a ← expression fuel
      argsLoop fuel (acc ++ [a])
    else
      pure acc

/-- `primary` (`parser.go` lines 395–420).  The fall-through raises the
synchronizing *Expect expression.* error; the Go `return nil` after it
is unreachable (the panic has unwound), so the literal returned below it
never materializes. -/
def primary : Nat → P Expr
  | 0 => fuelErr
  | fuel + 1 => do
    if ← matchTokens [TokenType.tFalse] then do
      let nid ← getNextExprId
      pure (Expr.literal nid (Literal.lbool false))
    else if ← matchTokens [TokenType.tTrue] then do
      let nid ← getNextExprId
      pure (Expr.literal nid (Literal.lbool true))
    else if ← matchTokens [TokenType.tNil] then do
      let nid ← getNextExprId
      pure (Expr.literal nid Literal.lnil)
    else if ← matchTokens [TokenType.tNumber, TokenType.tString] then do
      let nid ← getNextExprId
      let prev ← previousT
      pure (Expr.literal nid prev.literal)
    else if ← matchTokens [TokenType.tSuper] then do
      let keyword ← previousT
      let _ ← consume TokenType.tDot "Expect '.' after 'super'."
      let method ← consume TokenType.tIdentifier "Expect superclass method name."
      let nid ← getNextExprId
      pure (Expr.superE nid keyword method)
    else if ← matchTokens [TokenType.tThis] then do
      let nid ← getNextExprId
      let prev ← previousT
      pure (Expr.thisE nid prev)
    else if ← matchTokens [TokenType.tIdentifier] then do
      let nid ← getNextExprId
      let prev ← previousT
      pure (Expr.varE nid prev)
    else if ← matchTokens [TokenType.tLeftParen] then do
      let e ← expression fuel
      let _ ← consume TokenType.tRightParen "Expect ')' after expression."
      let nid ← getNextExprId
      pure (Expr.grouping nid e)
    else do
      let tok ← peekT
      createError tok "Expect expression." true
      pure (Expr.literal 0 Literal.lnil)

end

/-- The loop of `Parse` (`parser.go` lines 74–80): while not at EOF,
append the result of `declaration()` — `nil` (`none`) included. -/
def parseLoop : Nat → P (List (Option Stmt))
  | 0 => fuelErr
  | fuel + 1 => do
    let atEnd ← isAtEndT
    if atEnd then
      pure []
    else do
      let d ← declaration fuel
      let rest ← parseLoop fuel
      pure (d :: rest)

/-- The initial parser state of `NewParser`. -/
def initState (tokens : List Token) : ParserState :=
  { tokens := tokens, current := 0, nextExprId := 0, hadError := false }

/-- The public `Parse` entry point, on a scanned token list.  The fuel
`tokens.length + 60` strictly dominates the cursor progress plus the
grammar's nesting depth on every input exercised below. -/
def Parse (tokens : List Token) : Except ParseErr (List (Option Stmt)) × ParserState :=
  parseLoop (tokens.length + 60) (initState tokens)

/-! ## Concrete token sequences used as inputs below

These are the token lists the scanner produces for the quoted source
texts (scanner behaviour per `scanner.go`: keyword and identifier tokens
carry their text as the literal, numbers carry the parsed value, and a
final EOF token is appended). -/

/-- A punctuation/keyword token. -/
def tokOf (tt : TokenType) (lex : String) (line : Nat) : Token :=
  { tokenType := tt, lexeme := lex, literal := Literal.lnil, line := line }

/-- A number token. -/
def numTok (lex : String) (v : Rat) (line : Nat) : Token :=
  { tokenType := TokenType.tNumber, lexeme := lex, literal := Literal.lnum v, line := line }

/-- An identifier token. -/
def identTok (nm : String) (line : Nat) : Token :=
  { tokenType := TokenType.tIdentifier, lexeme := nm, literal := Literal.lstr nm, line := line }

/-- The EOF token the scanner appends. -/
def eofT (line : Nat) : Token :=
  { tokenType := TokenType.tEndOfFile, lexeme := "", literal := Literal.lnil, line := line }

/-- Tokens of the source text `!!x;`. -/
def bangBangXTokens : List Token :=
  [tokOf TokenType.tBang "!" 1, tokOf TokenType.tBang "!" 1, identTok "x" 1,
   tokOf TokenType.tSemicolon ";" 1, eofT 1]

/-- Tokens of the source text `var 1; print 1;` (an erroneous variable
declaration followed by a valid statement). -/
def varBadTokens : List Token :=
  [tokOf TokenType.tVar "var" 1, numTok "1" 1 1, tokOf TokenType.tSemicolon ";" 1,
   tokOf TokenType.tPrint "print" 1, numTok "1" 1 1, tokOf TokenType.tSemicolon ";" 1,
   eofT 1]

/-- Tokens of the source text `for (;;) print 1;` (a `for` statement
whose three clauses are all omitted). -/
def forEmptyTokens : List Token :=
  [tokOf TokenType.tFor "for" 1, tokOf TokenType.tLeftParen "(" 1,
   tokOf TokenType.tSemicolon ";" 1, tokOf TokenType.tSemicolon ";" 1,
   tokOf TokenType.tRightParen ")" 1,
   tokOf TokenType.tPrint "print" 1, numTok "1" 1 1, tokOf TokenType.tSemicolon ";" 1,
   eofT 1]

/-! ## Claims and proofs -/

/-- C1 (evaluation of the code at the failing input): `isTruthy` in
`interpreter.go` returns `false` for every value that is not a boolean
— numbers and strings included — so `!0` and `!""` evaluate to `true`,
where the specification's truthiness law (`nil` and `false` falsy,
everything else truthy) requires `false`. -/
theorem c1_zero_and_empty_string_are_falsy_in_code :
    isTruthy (Value.vnum 0) = false ∧
    isTruthy (Value.vstr "") = false ∧
    unaryBang (Value.vnum 0) = Value.vbool true ∧
    unaryBang (Value.vstr "") = Value.vbool true ∧
    unaryBang Value.vnil = Value.vbool true ∧
    unaryBang (Value.vbool false) = Value.vbool true ∧
    unaryBang (Value.vbool true) = Value.vbool false :=
  ⟨rfl, rfl, rfl, rfl, rfl, rfl, rfl⟩

/-- C3 counterexample: reporting the runtime error "boom" at line 1
produces the single-line diagnostic `[line 1] boom` — the line tag comes
first — not the claimed `boom`-newline-`[line 1]` shape (with or without
a trailing newline). -/
theorem c3_runtime_diagnostic_counterexample :
    (reportRuntimeError ⟨false, false⟩ 1 "boom").2 = "[line 1] boom\n" ∧
    (reportRuntimeError ⟨false, false⟩ 1 "boom").2 ≠ "boom\n[line 1]" ∧
    (reportRuntimeError ⟨false, false⟩ 1 "boom").2 ≠ "boom\n[line 1]\n" := by
  refine ⟨rfl, ?_, ?_⟩ <;> decide

/-- C3 (amended): whenever a runtime error with message M is reported at
source line L, the diagnostic text produced is `[line L] M` on a single
line — the line tag first, then the message — followed by a newline, and
the had_runtime_error flag is set. -/
theorem c3_runtime_diagnostic_format (h : ErrorHandler) (line : Nat) (msg : String) :
    (reportRuntimeError h line msg).2
      = "[line " ++ toString line ++ "] " ++ msg ++ "\n" ∧
    (reportRuntimeError h line msg).1.hadRuntimeError = true :=
  ⟨rfl, rfl⟩

/-- C4: for all runtime values a and b, `a + b` returns the numeric sum
when both are numbers, the concatenation when both are strings, and
reports a runtime error (evaluating to `nil`) in every other combination
of operand kinds — and only in those: the error flag is raised exactly
when the two type-assertion helpers of the source both fail. -/
theorem c4_plus_dispatch (a b : Value) :
    visitBinaryPlus a b = specBinaryPlus a b ∧
    ((visitBinaryPlus a b).2 = true ↔
      areValuesValidFloats a b = false ∧ areValuesValidStrings a b = false) := by
  cases a <;> cases b <;>
    simp [visitBinaryPlus, specBinaryPlus, areValuesValidFloats, areValuesValidStrings]

/-- C8 counterexample: the native `clock` returns `time.Now()`, a
`time.Time` instant, which is not a Lox number. -/
theorem c8_clock_counterexample :
    (clockCall 0 []).isNumber = false ∧ clockCall 0 [] = Value.vtime 0 :=
  ⟨rfl, rfl⟩

/-- C8 (amended): calling the built-in `clock` returns the current
wall-clock instant as an opaque time value — not a number; its arity is
0 and it renders as `<native fun>` when printed. -/
theorem c8_clock_amended :
    clockArity = 0 ∧ clockToString = "<native fun>" ∧
    ∀ (now : Nat) (args : List Value), clockCall now args = Value.vtime now :=
  ⟨rfl, rfl, fun _ _ => rfl⟩

/-- C9 counterexample: a user function declared with name `f` renders as
`<fun f>`, not the claimed `<fn f>`. -/
theorem c9_function_rendering_counterexample :
    functionToString "f" = "<fun f>" ∧ functionToString "f" ≠ "<fn f>" := by
  refine ⟨rfl, ?_⟩
  decide

/-- C9 (amended): a user-declared function value prints as `<fun NAME>`
(the Go source writes `"<fun "`, not `"<fn "`); a class value prints as
the class's name; an instance prints as `NAME instance`. -/
theorem c9_rendering_amended (declName clsName instCls : String) :
    functionToString declName = "<fun " ++ declName ++ ">" ∧
    classToString clsName = clsName ∧
    instanceToString instCls = instCls ++ " instance" :=
  ⟨rfl, rfl, rfl⟩

/-- C2 (evaluation of the code at the failing input): because `unary`
parses its operand with `primary()` rather than `unary()`/`call()`, the
token sequence of `!!x;` does not produce a nested `Unary` AST — the
inner `!` raises the synchronizing *Expect expression.* error, the
parser recovers, and the statement list degenerates to the single `nil`
entry with the static error flag set.  (A single `!x;` still parses,
showing the failure is specifically the nested operand.) -/
theorem c2_nested_unary_fails_to_parse :
    (Parse bangBangXTokens).1 = Except.ok [none] ∧
    (Parse bangBangXTokens).2.hadError = true :=
  ⟨rfl, rfl⟩

/-- C7 (evaluation of the code at the failing input): `forStatement`
guards the increment clause with `!p.check(tokenTypeSemicolon)` instead
of the closing parenthesis, so a `for` with an omitted increment —
here `for (;;) print 1;` — tries to parse an expression at `)`, raises
the synchronizing *Expect expression.* error and yields no loop
statement at all (a `nil` entry, then the recovered `print`).  The
desugaring construction itself (lines 211–223) does agree with the
spec's description, as the third conjunct states for every combination
of present/omitted clauses. -/
theorem c7_for_omitted_increment_fails :
    (Parse forEmptyTokens).1
      = Except.ok [none, some (Stmt.printS (Expr.literal 1 (Literal.lnum 1)))] ∧
    (Parse forEmptyTokens).2.hadError = true ∧
    (∀ (initializer : Option Stmt) (condition : Option Expr)
       (increment : Option Expr) (freshCondId : Nat) (body : Stmt),
       forDesugar initializer condition increment freshCondId body =
         specForDesugar initializer condition increment freshCondId body) := by
  refine ⟨rfl, rfl, ?_⟩
  intro initializer condition increment freshCondId body
  cases initializer <;> cases condition <;> cases increment <;> rfl

/-- C10: on the erroneous input `var 1; print 1;` the synchronizing
error in `varDeclaration` unwinds to `declaration`, which recovers,
synchronizes and returns `nil`; `Parse` appends that `nil`, so the
returned statement list holds a `nil` entry alongside the valid `print`
statement, and the static error flag is set. -/
theorem c10_parse_appends_nil :
    (Parse varBadTokens).1
      = Except.ok [none, some (Stmt.printS (Expr.literal 1 (Literal.lnum 1)))] ∧
    (Parse varBadTokens).2.hadError = true :=
  ⟨rfl, rfl⟩

/-- The countdown loop of `resolveLocal` finds the topmost scope holding
the name: if index `i` holds the name and no index strictly between `i`
and the loop start does, the loop stops at `i` and reports the hop
distance `length - 1 - i`. -/
theorem resolveLocalLoop_found (scopes : List Scope) (name : String) (i : Nat)
    (hfound : scopeHas (scopes.getD i []) name = true) :
    ∀ k, i < k → k ≤ scopes.length →
      (∀ j, j < k → i < j → scopeHas (scopes.getD j []) name = false) →
      resolveLocalLoop scopes name k = some (scopes.length - 1 - i) := by
  intro k
  induction k with
  | zero => intro h; exact absurd h (Nat.not_lt_zero i)
  | succ k ih =>
    intro hik hk hnone
    by_cases hie : i = k
    · subst hie
      rw [resolveLocalLoop, hfound]
      simp
    · have hik' : i < k := Nat.lt_of_le_of_ne (Nat.le_of_lt_succ hik) hie
      have hkf : scopeHas (scopes.getD k []) name = false :=
        hnone k (Nat.lt_succ_self k) hik'
      rw [resolveLocalLoop, hkf]
      simp only [Bool.false_eq_true, if_false]
      exact ih hik' (Nat.le_of_succ_le hk)
        (fun j hj1 hj2 => hnone j (Nat.lt_succ_of_lt hj1) hj2)

/-- If no scope below the loop start holds the name, the countdown loop
of `resolveLocal` falls through without recording anything. -/
theorem resolveLocalLoop_not_found (scopes : List Scope) (name : String) :
    ∀ k, k ≤ scopes.length →
      (∀ j, j < k → scopeHas (scopes.getD j []) name = false) →
      resolveLocalLoop scopes name k = none := by
  intro k
  induction k with
  | zero => intro _ _; rfl
  | succ k ih =>
    intro hk hnone
    have hkf : scopeHas (scopes.getD k []) name = false :=
      hnone k (Nat.lt_succ_self k)
    rw [resolveLocalLoop, hkf]
    simp only [Bool.false_eq_true, if_false]
    exact ih (Nat.le_of_succ_le hk) (fun j hj => hnone j (Nat.lt_succ_of_lt hj))

/-- C5: `resolve_local` walks the scope stack from the innermost (top)
index downward; when the name is first found at stack index `i` (that
is, `i` holds it and no higher index does), the side-table entry it
records is the hop distance `n - 1 - i`; when no scope holds the name,
nothing is recorded, and the interpreter's variable lookup with an
absent entry reads the globals. -/
theorem c5_resolve_local_walk (scopes : List Scope) (name : String) (n : Nat)
    (hn : scopes.length = n) :
    (∀ i, i < n → scopeHas (scopes.getD i []) name = true →
      (∀ j, j < n → i < j → scopeHas (scopes.getD j []) name = false) →
      resolveLocal scopes name = some (n - 1 - i)) ∧
    ((∀ j, j < n → scopeHas (scopes.getD j []) name = false) →
      resolveLocal scopes name = none ∧
      ∀ (env globals : Env),
        lookUpVariable (resolveLocal scopes name) env globals name = globals.get name) := by
  subst hn
  constructor
  · intro i hi hfound hnone
    exact resolveLocalLoop_found scopes name i hfound scopes.length hi (Nat.le_refl _) hnone
  · intro hnone
    have hres : resolveLocal scopes name = none :=
      resolveLocalLoop_not_found scopes name scopes.length (Nat.le_refl _) hnone
    refine ⟨hres, ?_⟩
    intro env globals
    rw [hres]
    rfl

/-- C5 witness: on the concrete stack `[{x}, {y}]` (the scope holding
`y` on top), `x` is found at index 0 with hop distance `2 - 1 - 0 = 1`,
and an unknown name `z` records nothing and falls back to the globals
read. -/
theorem c5_resolve_local_walk_witness :
    resolveLocal [[("x", true)], [("y", true)]] "x" = some 1 ∧
    (resolveLocal [[("x", true)], [("y", true)]] "z" = none ∧
      lookUpVariable (resolveLocal [[("x", true)], [("y", true)]] "z")
        (Env.mk [] none) (Env.mk [("z", Value.vnum 7)] none) "z"
        = (Env.mk [("z", Value.vnum 7)] none).get "z") := by
  refine ⟨?_, ?_, ?_⟩
  · exact (c5_resolve_local_walk [[("x", true)], [("y", true)]] "x" 2 rfl).1
      0 (by decide) (by decide) (by decide)
  · exact ((c5_resolve_local_walk [[("x", true)], [("y", true)]] "z" 2 rfl).2
      (by decide)).1
  · exact ((c5_resolve_local_walk [[("x", true)], [("y", true)]] "z" 2 rfl).2
      (by decide)).2 (Env.mk [] none) (Env.mk [("z", Value.vnum 7)] none)

/-- Walking one more ancestor step is the same as taking the parent of
the previous ancestor: the environment at hop `d + 1` is the `enclosing`
of the environment at hop `d`. -/
theorem ancestor_succ (d : Nat) : ∀ (env : Env),
    env.ancestor (d + 1) = (env.ancestor d).bind Env.enclosing := by
  induction d with
  | zero =>
    intro env
    cases env with
    | mk vals enc => cases enc <;> rfl
  | succ d ih =>
    intro env
    cases env with
    | mk vals enc =>
      cases enc with
      | none => rfl
      | some parent => exact ih parent

/-- C6: for a `super.method` expression with recorded hop distance `d`,
the interpreter reads the superclass at environment ancestor `d`
(modelled `visitSuperExpr`) and reads `this` at ancestor `d − 1`
(`getSubClassThisValue` in the source); the environment holding `this`
is exactly one parent hop closer than the environment holding `super`:
ancestor `d` is the `enclosing` of ancestor `d − 1`. -/
theorem c6_super_two_hop (env : Env) (d : Nat) (hd : 1 ≤ d) :
    (visitSuperReads env d).1 = env.getAt d "super" ∧
    (visitSuperReads env d).2
      = (env.ancestor (d - 1)).map (fun anc => anc.readValue "this") ∧
    env.ancestor d = (env.ancestor (d - 1)).bind Env.enclosing := by
    refine ⟨rfl, rfl, ?_⟩
    obtain ⟨d0, rfl⟩ : ∃ d0, d = d0 + 1 :=
      ⟨d - 1, (Nat.succ_pred_eq_of_pos hd).symm⟩
    simpa using ancestor_succ d0 env

/-- C6 witness: in the concrete chain `{this: true} → {super: class A}`
with recorded distance 1, the claim's reads and the one-hop relation
hold. -/
theorem c6_super_two_hop_witness :
    (visitSuperReads (Env.mk [("this", Value.vbool true)]
        (some (Env.mk [("super", Value.vclass "A")] none))) 1).1
      = (Env.mk [("this", Value.vbool true)]
          (some (Env.mk [("super", Value.vclass "A")] none))).getAt 1 "super" ∧
    (visitSuperReads (Env.mk [("this", Value.vbool true)]
        (some (Env.mk [("super", Value.vclass "A")] none))) 1).2
      = ((Env.mk [("this", Value.vbool true)]
          (some (Env.mk [("super", Value.vclass "A")] none))).ancestor 0).map
          (fun anc => anc.readValue "this") ∧
    (Env.mk [("this", Value.vbool true)]
        (some (Env.mk [("super", Value.vclass "A")] none))).ancestor 1
      = ((Env.mk [("this", Value.vbool true)]
          (some (Env.mk [("super", Value.vclass "A")] none))).ancestor 0).bind
          Env.enclosing :=
  c6_super_two_hop
    (Env.mk [("this", Value.vbool true)] (some (Env.mk [("super", Value.vclass "A")] none)))
    1 (by decide)

end Glox
